import Mathlib

/-!
Verification of the job-scraping / auto-application core of the repository.

The Python source is shallowly embedded: dictionaries with optional keys
become structures with `Option` fields, f-string rendering of `None`
becomes `pyStr`, external effects (web driver, database, chat delivery,
sentence-embedding models) become explicit function parameters or result
oracles, and wall-clock datetimes become minutes-since-epoch naturals
(the cache key bucket `strftime "%Y%m%d%H"` becomes the hour number
`now / 60`).
-/

namespace CostByte

/-- Rendering of an optional string the way a Python f-string renders it:
a missing value (`None`) prints as the literal text `None`. -/
def pyStr : Option String → String
  | none => "None"
  | some s => s

/-- Rendering of an optional integer the way a Python f-string renders it. -/
def pyStrI : Option Int → String
  | none => "None"
  | some n => toString n

/-- Python's `pat in s` substring test on strings. -/
def pyIn (pat s : String) : Bool :=
  decide (pat.data <:+: s.data)

/-- A scraped job posting: the job dictionaries built by the scrapers in
`ai_services/job_scraper/main.py` (`parse_page`) and consumed by the
auto-applier.  Every key may be absent, hence `Option` fields. -/
structure Job where
  source : Option String := none
  job_id : Option String := none
  title : Option String := none
  company : Option String := none
  location : Option String := none
  description : Option String := none
  apply_url : Option String := none
  match_score : Option Int := none
deriving DecidableEq

/-- The unique identifier built by `JobScraper.remove_duplicates`
(main.py line 103):
`job_id = f"{job.get('source')}_{job.get('job_id')}_{job.get('title')}_{job.get('company')}"`. -/
def fingerprint (j : Job) : String :=
  pyStr j.source ++ "_" ++ pyStr j.job_id ++ "_" ++ pyStr j.title ++ "_" ++ pyStr j.company

/-- The loop body of `JobScraper.remove_duplicates` (main.py lines 98-109):
walk the list, keep a `seen` set of fingerprints, append each job whose
fingerprint has not been seen. -/
def remove_duplicates_go : List Job → List String → List Job
  | [], _ => []
  | j :: rest, seen =>
    if fingerprint j ∈ seen then remove_duplicates_go rest seen
    else j :: remove_duplicates_go rest (fingerprint j :: seen)

/-- `JobScraper.remove_duplicates` (main.py lines 95-109). -/
def remove_duplicates (jobs : List Job) : List Job :=
  remove_duplicates_go jobs []

/-- Stable insertion used by `sortDesc`: an element is placed before the
first already-sorted element whose key is `≤` its own, so among equal keys
earlier elements stay first — the stability guarantee of Python's
`list.sort(key=..., reverse=True)`. -/
def insertDesc {α β : Type} [LinearOrder β] (key : α → β) (a : α) : List α → List α
  | [] => [a]
  | b :: l => if key b ≤ key a then a :: b :: l else b :: insertDesc key a l

/-- Stable sort by descending key: the embedding of Python's
`list.sort(key=..., reverse=True)`. -/
def sortDesc {α β : Type} [LinearOrder β] (key : α → β) : List α → List α
  | [] => []
  | a :: l => insertDesc key a (sortDesc key l)

/-- The sort key `lambda x: x.get('match_score', 0)` used in
`apply_for_jobs` (auto_applier/main.py line 72) and
`match_jobs_to_user` (job_scraper/main.py line 128). -/
def scoreKey (j : Job) : Int :=
  j.match_score.getD 0

/-- The user preference dictionary handed to the scraper; only the key
read with a default by the embedded code is modelled explicitly, the
remaining keys are consumed opaquely by the score/reason oracles. -/
structure Prefs where
  min_match_score : Option Int := none
deriving DecidableEq

/-- A job dictionary after `match_jobs_to_user` added the keys
`match_score` and `match_reasons` (job_scraper/main.py lines 123-124). -/
structure MatchedJob where
  job : Job
  match_score : Int
  match_reasons : List String
deriving DecidableEq

/-- `JobScraper.match_jobs_to_user` (job_scraper/main.py lines 111-130).
The `JobMatcher` collaborator is imported from a module absent from the
repository, so `calculate_match_score` / `get_match_reasons` are
parameters: for each job keep it exactly when its score reaches
`preferences.get('min_match_score', 70)`, then stably sort by descending
score. -/
def match_jobs_to_user (calculate_match_score : Job → Prefs → Int)
    (get_match_reasons : Job → Prefs → List String)
    (jobs : List Job) (preferences : Prefs) : List MatchedJob :=
  let matched := jobs.filterMap (fun j =>
    let s := calculate_match_score j preferences
    if preferences.min_match_score.getD 70 ≤ s then
      some ⟨j, s, get_match_reasons j preferences⟩
    else none)
  sortDesc (fun m => m.match_score) matched

/-- `JobScraper.scrape_source` (job_scraper/main.py lines 86-93): one
adapter call, whose outcome is either a posting list or a raised
exception; every exception is caught and replaced by the empty list, so
the function is total and never re-raises. -/
def scrape_source (result : Except String (List Job)) : List Job :=
  match result with
  | .ok jobs => jobs
  | .error _ => []

/-- The cache-miss computation of `JobScraper.scrape_for_user`
(job_scraper/main.py lines 52-74): run every adapter through
`scrape_source`, concatenate the surviving results (the
`isinstance(result, Exception)` guard never fires because
`scrape_source` already caught everything, and extending with an empty
falsy list is a no-op), deduplicate, then match against the user. -/
def computeScrapeResults (calculate_match_score : Job → Prefs → Int)
    (get_match_reasons : Job → Prefs → List String)
    (adapterResults : List (Except String (List Job)))
    (preferences : Prefs) : List MatchedJob :=
  let all_jobs := (adapterResults.map scrape_source).flatten
  match_jobs_to_user calculate_match_score get_match_reasons
    (remove_duplicates all_jobs) preferences

/-- One entry of `self.job_cache` (job_scraper/main.py lines 77-81). -/
structure CacheEntry where
  jobs : List MatchedJob
  timestamp : Nat
  count : Nat
deriving DecidableEq

/-- The mutable state of the `JobScraper` orchestrator: the `job_cache`
dictionary, modelled as an association list where the newest binding for
a key shadows older ones. -/
structure ScrapeState where
  jobCache : List (String × CacheEntry) := []
deriving DecidableEq

/-- The cache key `f"user_{user_id}_{datetime.now().strftime('%Y%m%d%H')}"`
(job_scraper/main.py line 45); with time as minutes-since-epoch the
`%Y%m%d%H` bucket is the hour number `now / 60`. -/
def cacheKey (user_id : String) (now : Nat) : String :=
  "user_" ++ user_id ++ "_" ++ toString (now / 60)

/-- `self.job_cache.get(cache_key)`. -/
def cacheLookup (st : ScrapeState) (key : String) : Option CacheEntry :=
  (st.jobCache.find? (fun p => p.1 == key)).map Prod.snd

/-- The cache-miss branch of `scrape_for_user`: compute the matched jobs
and store them under the key with the current timestamp
(job_scraper/main.py lines 52-84).  The returned flag records that the
adapters were invoked (once each) by this call. -/
def scrapeAndCache (calculate_match_score : Job → Prefs → Int)
    (get_match_reasons : Job → Prefs → List String)
    (adapterResults : List (Except String (List Job)))
    (user_id : String) (preferences : Prefs) (now : Nat)
    (st : ScrapeState) : List MatchedJob × ScrapeState × Bool :=
  let matched := computeScrapeResults calculate_match_score get_match_reasons
    adapterResults preferences
  let key := cacheKey user_id now
  (matched, ⟨(key, ⟨matched, now, matched.length⟩) :: st.jobCache⟩, true)

/-- `JobScraper.scrape_for_user` (job_scraper/main.py lines 37-84): on a
cache hit younger than `self.cache_expiry = timedelta(hours=1)` return
the cached jobs without touching any adapter (flag `false`); otherwise
scrape, match and cache (flag `true`). -/
def scrape_for_user (calculate_match_score : Job → Prefs → Int)
    (get_match_reasons : Job → Prefs → List String)
    (adapterResults : List (Except String (List Job)))
    (user_id : String) (preferences : Prefs) (now : Nat)
    (st : ScrapeState) : List MatchedJob × ScrapeState × Bool :=
  let key := cacheKey user_id now
  match cacheLookup st key with
  | some cached =>
    if now - cached.timestamp < 60 then (cached.jobs, st, false)
    else scrapeAndCache calculate_match_score get_match_reasons
      adapterResults user_id preferences now st
  | none => scrapeAndCache calculate_match_score get_match_reasons
      adapterResults user_id preferences now st

/-- Outcome of one `await self.apply_for_job(user_id, job)` call inside
the `apply_for_jobs` loop: the call returns a boolean or raises. -/
inductive ApplyRes where
  | success
  | failure
  | exn (msg : String)
deriving DecidableEq

/-- One row written by `AutoApplier.log_application`
(auto_applier/main.py lines 607-624): `status` is `'applied'` when
`success` is true and `'failed'` otherwise, with an optional error
message. -/
structure LogEntry where
  job : Job
  success : Bool
  error : Option String := none
deriving DecidableEq

/-- The observable outcome of one `apply_for_jobs` run: the returned
`successful_applications` list, the `log_application` records and the
`notify_user` events issued during the run. -/
structure RunResult where
  successful_applications : List Job
  logs : List LogEntry
  notifications : List (Job × Bool)
deriving DecidableEq

/-- `jobs.sort(key=..., reverse=True)` followed by
`jobs[:remaining_applications]` (auto_applier/main.py lines 72 and 81):
the candidate selection of a run. -/
def scheduleJobs (jobs : List Job) (remaining : Nat) : List Job :=
  (sortDesc scoreKey jobs).take remaining

/-- The `for job in jobs_to_apply` loop of `apply_for_jobs`
(auto_applier/main.py lines 86-112).  On success the job is appended to
`successful_applications`, logged with `True` and notified; on a `False`
return it is logged with `False`; on an exception it is logged with
`False` and the message.  After every iteration the loop breaks once
`len(successful_applications) >= remaining_applications`. -/
def applyLoop (attempt : Job → ApplyRes) (remaining : Nat) :
    List Job → List Job → List LogEntry → List (Job × Bool) → RunResult
  | [], succ, logs, notifs => ⟨succ, logs, notifs⟩
  | j :: rest, succ, logs, notifs =>
    match attempt j with
    | .success =>
      let succ := succ ++ [j]
      let logs := logs ++ [⟨j, true, none⟩]
      let notifs := notifs ++ [(j, true)]
      if remaining ≤ succ.length then ⟨succ, logs, notifs⟩
      else applyLoop attempt remaining rest succ logs notifs
    | .failure =>
      let logs := logs ++ [⟨j, false, none⟩]
      if remaining ≤ succ.length then ⟨succ, logs, notifs⟩
      else applyLoop attempt remaining rest succ logs notifs
    | .exn e =>
      let logs := logs ++ [⟨j, false, some e⟩]
      if remaining ≤ succ.length then ⟨succ, logs, notifs⟩
      else applyLoop attempt remaining rest succ logs notifs

/-- `AutoApplier.apply_for_jobs` (auto_applier/main.py lines 63-115).
`applications_today` is the count returned by
`get_todays_applications`, `max_daily` the keyword argument; the browser
session, user-data load and the per-job outcome are abstracted into the
`attempt` oracle.  `remaining_applications = max(0, max_daily -
applications_today)`; when it is `<= 0` the run returns immediately,
otherwise the sorted quota-sized slice is processed by the loop. -/
def apply_for_jobs (attempt : Job → ApplyRes) (jobs : List Job)
    (max_daily applications_today : Int) : RunResult :=
  let remaining : Int := max 0 (max_daily - applications_today)
  if remaining ≤ 0 then ⟨[], [], []⟩
  else applyLoop attempt remaining.toNat (scheduleJobs jobs remaining.toNat) [] [] []

/-- The page facts `detect_form_type` inspects: the driver's
`current_url` and whether the two probed elements exist (an Easy Apply
button, an `indeed-apply-button` control).  `find_element` only reads
the DOM, so the page is a value, never mutated. -/
structure PageState where
  url : String
  hasEasyApplyButton : Bool := false
  hasIndeedApplyButton : Bool := false
deriving DecidableEq

/-- The URL chain of `detect_form_type` (auto_applier/main.py lines
161-171): the first matching platform pattern, if any. -/
def urlFormType (current_url : String) : Option String :=
  if pyIn "linkedin.com" current_url && pyIn "easyApply" current_url then
    some "linkedin_easy_apply"
  else if pyIn "indeed.com" current_url && pyIn "apply" current_url then
    some "indeed_apply"
  else if pyIn "careers24.com" current_url then some "careers24_apply"
  else if pyIn "pnet.co.za" current_url then some "pnet_apply"
  else none

/-- `AutoApplier.detect_form_type` (auto_applier/main.py lines 158-189):
first the URL chain; if no URL pattern matched, probe for the Easy Apply
button, then the Indeed apply control; otherwise `generic`. -/
def detect_form_type (page : PageState) : String :=
  match urlFormType page.url with
  | some t => t
  | none =>
    if page.hasEasyApplyButton then "linkedin_easy_apply"
    else if page.hasIndeedApplyButton then "indeed_apply"
    else "generic"

/-- Browser-visible actions taken by `apply_for_job`, in order. -/
inductive BrowserAction where
  | navigate (url : String)
  | detectForm
  | fillForm (variant : String)
deriving DecidableEq

/-- `AutoApplier.apply_for_job` (auto_applier/main.py lines 117-156).
`pageAfter url` is the page the driver shows after `driver.get(url)`
(or the exception it raised); `fillResult variant` is the boolean
returned by the variant's form filler (or the exception it raised); the
surrounding `try` turns any exception into a `False` return.  A job
whose `apply_url` is missing or falsy returns `False` before any
browser action. -/
def apply_for_job (pageAfter : String → Except String PageState)
    (fillResult : String → Except String Bool) (job : Job) :
    Bool × List BrowserAction :=
  match job.apply_url with
  | none => (false, [])
  | some url =>
    if url = "" then (false, [])
    else
      match pageAfter url with
      | .error _ => (false, [.navigate url])
      | .ok page =>
        let form_type := detect_form_type page
        match fillResult form_type with
        | .ok b => (b, [.navigate url, .detectForm, .fillForm form_type])
        | .error _ => (false, [.navigate url, .detectForm, .fillForm form_type])

/-- The global name `cosine_similarity` as resolvable inside
`ai_services/job_scraper/scraper.py`: the module neither imports nor
defines it, so the lookup yields nothing and evaluating it raises
`NameError`. -/
def cosineSimilarityBinding : Option (List ℚ → List ℚ → ℚ) := none

/-- The per-job loop of `JobScraper.ai_match_jobs` in scraper.py
(lines 38-45): embed the description (`job['description']` raises
`KeyError` when absent), evaluate `cosine_similarity` (a `NameError`,
see `cosineSimilarityBinding`), keep jobs whose similarity exceeds
`0.75` with the similarity stored as their match score. -/
def ai_match_jobs_go (encode : String → List ℚ) (user_embedding : List ℚ) :
    List Job → Except String (List (Job × ℚ))
  | [] => .ok []
  | j :: rest =>
    match j.description with
    | none => .error "KeyError: description"
    | some d =>
      match cosineSimilarityBinding with
      | none => .error "NameError: name cosine_similarity is not defined"
      | some cos =>
        let similarity := cos user_embedding (encode d)
        match ai_match_jobs_go encode user_embedding rest with
        | .error e => .error e
        | .ok tail =>
          if (3 / 4 : ℚ) < similarity then .ok ((j, similarity) :: tail)
          else .ok tail

/-- `JobScraper.ai_match_jobs` (scraper.py lines 30-47): encode the
profile skills, score every job, and return the matches sorted by
descending similarity.  `encode` stands for the external
`SentenceTransformer.encode`. -/
def ai_match_jobs (encode : String → List ℚ) (jobs : List Job)
    (profile_skills : String) : Except String (List (Job × ℚ)) :=
  let user_embedding := encode profile_skills
  match ai_match_jobs_go encode user_embedding jobs with
  | .error e => .error e
  | .ok matched => .ok (sortDesc (fun p => p.2) matched)

/-- A concrete fully-populated posting used to evaluate the embedded
code on explicit inputs. -/
def demoJob : Job :=
  { source := some "careers24", job_id := some "j1",
    title := some "Data Analyst", company := some "Acme",
    location := some "Cape Town", description := some "Analyse sales data",
    apply_url := some "https://example.com/apply/1", match_score := some 90 }

/-- A posting that differs from `demoJob` only in job-independent
content, sharing its four identity fields. -/
def demoJobAlt : Job :=
  { source := some "careers24", job_id := some "j1",
    title := some "Data Analyst", company := some "Acme",
    location := some "Johannesburg", description := some "Analyse marketing data",
    apply_url := some "https://example.com/apply/2", match_score := some 75 }

/-- A distinct posting with a different fingerprint. -/
def demoJobOther : Job :=
  { source := some "pnet", job_id := some "p7",
    title := some "Engineer", company := some "Globex",
    description := some "Build things",
    apply_url := some "https://example.com/apply/3", match_score := some 60 }

/-- A posting carrying only a match score, for the scheduling example. -/
def jobWithScore (n : Int) : Job :=
  { match_score := some n }

/-- A posting with every identity field missing and only a description. -/
def jobMissA : Job :=
  { description := some "Remote role in Cape Town" }

/-- A second identity-free posting with different content. -/
def jobMissB : Job :=
  { description := some "On-site role in Durban" }

/-- A constant match scorer used to run the orchestrator on concrete
inputs. -/
def scoreDemo : Job → Prefs → Int := fun _ _ => 90

/-- A constant reason generator for concrete runs. -/
def reasonsDemo : Job → Prefs → List String := fun _ _ => ["skills match"]

/-- One healthy adapter returning a single posting. -/
def demoAdapters : List (Except String (List Job)) := [.ok [demoJob]]

/-- Preferences with every key absent (all defaults apply). -/
def demoPrefs : Prefs := {}

/-- An application oracle that always succeeds. -/
def attemptDemo : Job → ApplyRes := fun _ => .success

/-- An application oracle that always returns `False`. -/
def attemptFail : Job → ApplyRes := fun _ => .failure

/-- An application oracle that always raises. -/
def attemptExn : Job → ApplyRes := fun _ => .exn "boom"

/-- A page whose URL matches no platform pattern and which shows neither
probed control. -/
def pageDemo : PageState :=
  { url := "https://example.com/careers/42" }

/-! ## Deduplication lemmas -/

/-- Every job retained by the dedup loop has a fingerprint outside the
incoming `seen` set. -/
theorem fingerprint_notMem_seen {l : List Job} {seen : List String} {j : Job}
    (h : j ∈ remove_duplicates_go l seen) : fingerprint j ∉ seen := by
  induction l generalizing seen with
  | nil => simp [remove_duplicates_go] at h
  | cons a t ih =>
    rw [remove_duplicates_go] at h
    by_cases ha : fingerprint a ∈ seen
    · rw [if_pos ha] at h
      exact ih h
    · rw [if_neg ha] at h
      rcases List.mem_cons.mp h with rfl | h
      · exact ha
      · intro hs
        exact ih h (List.mem_cons_of_mem _ hs)

/-- Every job retained by the dedup loop is the first element of the
remaining input bearing its fingerprint. -/
theorem find?_of_mem_remove_duplicates_go {l : List Job} {seen : List String}
    {j : Job} (h : j ∈ remove_duplicates_go l seen) :
    l.find? (fun k => fingerprint k == fingerprint j) = some j := by
  induction l generalizing seen with
  | nil => simp [remove_duplicates_go] at h
  | cons a t ih =>
    rw [remove_duplicates_go] at h
    by_cases ha : fingerprint a ∈ seen
    · rw [if_pos ha] at h
      have hne : fingerprint a ≠ fingerprint j := by
        intro he
        exact fingerprint_notMem_seen h (he ▸ ha)
      rw [List.find?_cons_of_neg _ (by simpa using hne)]
      exact ih h
    · rw [if_neg ha] at h
      rcases List.mem_cons.mp h with rfl | h
      · rw [List.find?_cons_of_pos _ (by simp)]
      · have hnm := fingerprint_notMem_seen h
        have hne : fingerprint a ≠ fingerprint j := by
          intro he
          exact hnm (he ▸ List.mem_cons_self _ _)
        rw [List.find?_cons_of_neg _ (by simpa using hne)]
        exact ih h

/-- The dedup loop never emits two jobs with the same fingerprint. -/
theorem pairwise_ne_remove_duplicates_go (l : List Job) (seen : List String) :
    (remove_duplicates_go l seen).Pairwise
      (fun a b => fingerprint a ≠ fingerprint b) := by
  induction l generalizing seen with
  | nil => simp [remove_duplicates_go]
  | cons a t ih =>
    rw [remove_duplicates_go]
    by_cases ha : fingerprint a ∈ seen
    · rw [if_pos ha]
      exact ih seen
    · rw [if_neg ha]
      refine List.Pairwise.cons ?_ (ih _)
      intro b hb he
      exact fingerprint_notMem_seen hb (he ▸ List.mem_cons_self _ _)

/-- On an input whose fingerprints avoid `seen` and are pairwise
distinct, the dedup loop is the identity. -/
theorem remove_duplicates_go_eq_self {l : List Job} {seen : List String}
    (h1 : ∀ j ∈ l, fingerprint j ∉ seen)
    (h2 : l.Pairwise (fun a b => fingerprint a ≠ fingerprint b)) :
    remove_duplicates_go l seen = l := by
  induction l generalizing seen with
  | nil => rfl
  | cons a t ih =>
    rw [remove_duplicates_go, if_neg (h1 a (List.mem_cons_self _ _))]
    refine congrArg (a :: ·) (ih ?_ (List.Pairwise.of_cons h2))
    intro j hj
    rcases List.rel_of_pairwise_cons h2 hj with hne
    intro hs
    rcases List.mem_cons.mp hs with he | hs
    · exact hne he.symm
    · exact h1 j (List.mem_cons_of_mem _ hj) hs

/-- Claim C4: `remove_duplicates` is idempotent, and every retained
posting is the first element of the input bearing its fingerprint. -/
theorem claim_C4_dedup (jobs : List Job) :
    remove_duplicates (remove_duplicates jobs) = remove_duplicates jobs ∧
    ∀ j ∈ remove_duplicates jobs,
      jobs.find? (fun k => fingerprint k == fingerprint j) = some j := by
  constructor
  · exact remove_duplicates_go_eq_self (fun j _ => List.not_mem_nil _)
      (pairwise_ne_remove_duplicates_go jobs [])
  · intro j hj
    exact find?_of_mem_remove_duplicates_go hj

/-- Witness for claim C4 at a concrete input: postings with fingerprints
A, A, B collapse to two, and the retained job with fingerprint B is the
first input element bearing it. -/
theorem claim_C4_dedup_witness :
    remove_duplicates (remove_duplicates [demoJob, demoJobAlt, demoJobOther]) =
      remove_duplicates [demoJob, demoJobAlt, demoJobOther] ∧
    [demoJob, demoJobAlt, demoJobOther].find?
      (fun k => fingerprint k == fingerprint demoJobOther) = some demoJobOther :=
  ⟨(claim_C4_dedup [demoJob, demoJobAlt, demoJobOther]).1,
    (claim_C4_dedup [demoJob, demoJobAlt, demoJobOther]).2 demoJobOther (by decide)⟩

/-! ## Fingerprint (claim C5) -/

/-- Counterexample to claim C5: two postings whose four identity fields
are all missing and whose contents differ receive the *same* fingerprint,
the literal rendering `None_None_None_None` — no content-hash fallback is
applied when fields are missing. -/
theorem claim_C5_counterexample :
    jobMissA.description ≠ jobMissB.description ∧
    jobMissA.source = none ∧ jobMissA.job_id = none ∧
    jobMissA.title = none ∧ jobMissA.company = none ∧
    jobMissB.source = none ∧ jobMissB.job_id = none ∧
    jobMissB.title = none ∧ jobMissB.company = none ∧
    fingerprint jobMissA = fingerprint jobMissB ∧
    fingerprint jobMissA = "None_None_None_None" := by
  decide

/-- Claim C5 as amended: the fingerprint is a pure function of
(source, external id, title, company); a missing field is rendered as the
literal string `None` (there is no content-hash fallback), so equal values
of those four inputs always produce equal fingerprints. -/
theorem claim_C5_amended (j1 j2 : Job)
    (hs : j1.source = j2.source) (hi : j1.job_id = j2.job_id)
    (ht : j1.title = j2.title) (hc : j1.company = j2.company) :
    fingerprint j1 = fingerprint j2 ∧
    (j1.source = none → j1.job_id = none → j1.title = none →
      j1.company = none → fingerprint j1 = "None_None_None_None") := by
  constructor
  · unfold fingerprint
    rw [hs, hi, ht, hc]
  · intro h1 h2 h3 h4
    simp [fingerprint, pyStr, h1, h2, h3, h4]

/-- Witness for the amended claim C5 at concrete inputs: `demoJob` and
`demoJobAlt` share the four identity fields and get equal fingerprints,
and an identity-free posting gets the literal fingerprint. -/
theorem claim_C5_amended_witness :
    fingerprint demoJob = fingerprint demoJobAlt ∧
    fingerprint jobMissA = "None_None_None_None" :=
  ⟨(claim_C5_amended demoJob demoJobAlt rfl rfl rfl rfl).1,
    (claim_C5_amended jobMissA jobMissA rfl rfl rfl rfl).2 rfl rfl rfl rfl⟩

/-! ## Fault isolation (claim C2) -/

/-- Claim C2: an adapter that raises contributes nothing and aborts
nothing: `scrape_source` converts its exception to an empty result, and
both the scrape computation and a cold-cache `scrape_for_user` call
return exactly the merged, deduplicated, matched results of the
remaining adapters. -/
theorem claim_C2_fault_isolation (calculate_match_score : Job → Prefs → Int)
    (get_match_reasons : Job → Prefs → List String)
    (l1 l2 : List (Except String (List Job))) (e : String)
    (preferences : Prefs) (user_id : String) (now : Nat) :
    scrape_source (Except.error e) = [] ∧
    computeScrapeResults calculate_match_score get_match_reasons
        (l1 ++ Except.error e :: l2) preferences =
      computeScrapeResults calculate_match_score get_match_reasons
        (l1 ++ l2) preferences ∧
    (scrape_for_user calculate_match_score get_match_reasons
        (l1 ++ Except.error e :: l2) user_id preferences now ⟨[]⟩).1 =
      (scrape_for_user calculate_match_score get_match_reasons
        (l1 ++ l2) user_id preferences now ⟨[]⟩).1 := by
  have hc : computeScrapeResults calculate_match_score get_match_reasons
      (l1 ++ Except.error e :: l2) preferences =
      computeScrapeResults calculate_match_score get_match_reasons
        (l1 ++ l2) preferences := by
    unfold computeScrapeResults
    simp [scrape_source]
  refine ⟨rfl, hc, ?_⟩
  simp [scrape_for_user, cacheLookup, scrapeAndCache, hc]

/-! ## Match scoring in scraper.py (claim C6) -/

/-- Claim C6 against scraper.py: `ai_match_jobs` cannot return any match
score at all on a non-empty job list — the very first scoring step
evaluates the undefined name `cosine_similarity` and raises `NameError`,
whatever the embedding model returns and whatever the user profile is.
(Its intended value, a cosine similarity, is a real in `[-1, 1]`, not an
integer in `[0, 100]`.) -/
theorem claim_C6_score_namerror (encode : String → List ℚ)
    (profile_skills : String) :
    ai_match_jobs encode [demoJob] profile_skills =
      .error "NameError: name cosine_similarity is not defined" := by
  rfl

/-! ## Cache behaviour (claim C3) -/

/-- Counterexample to claim C3: two `scrape_for_user` calls 2 minutes
apart (minute 59 and minute 61, well inside the one-hour TTL) both
invoke the adapters, because the cache key is the wall-clock hour bucket
and the two calls straddle an hour boundary.  Each adapter is invoked
twice in total, not at most once. -/
theorem claim_C3_counterexample :
    61 - 59 < 60 ∧
    (scrape_for_user scoreDemo reasonsDemo demoAdapters "u1" demoPrefs
      59 ⟨[]⟩).2.2 = true ∧
    (scrape_for_user scoreDemo reasonsDemo demoAdapters "u1" demoPrefs 61
      (scrape_for_user scoreDemo reasonsDemo demoAdapters "u1" demoPrefs
        59 ⟨[]⟩).2.1).2.2 = true := by
  refine ⟨by norm_num, rfl, ?_⟩
  decide

/-- Claim C3 as amended: starting from a cold cache, the first call
invokes the adapters; a second call for the same user in the *same
clock-hour bucket* is answered from the cache — same result, unchanged
state, no adapter invoked; and any call issued at least one hour later
(TTL expiry) invokes the adapters again.  Two in-TTL calls that straddle
an hour-bucket boundary are *not* covered: both invoke the adapters (see
the counterexample). -/
theorem claim_C3_amended (calculate_match_score : Job → Prefs → Int)
    (get_match_reasons : Job → Prefs → List String)
    (adapterResults : List (Except String (List Job)))
    (user_id : String) (preferences : Prefs) (t1 t2 : Nat) :
    (scrape_for_user calculate_match_score get_match_reasons adapterResults
      user_id preferences t1 ⟨[]⟩).2.2 = true ∧
    (t1 ≤ t2 → t1 / 60 = t2 / 60 →
      scrape_for_user calculate_match_score get_match_reasons adapterResults
          user_id preferences t2
          (scrape_for_user calculate_match_score get_match_reasons
            adapterResults user_id preferences t1 ⟨[]⟩).2.1 =
        ((scrape_for_user calculate_match_score get_match_reasons
            adapterResults user_id preferences t1 ⟨[]⟩).1,
          (scrape_for_user calculate_match_score get_match_reasons
            adapterResults user_id preferences t1 ⟨[]⟩).2.1, false)) ∧
    (t1 + 60 ≤ t2 →
      (scrape_for_user calculate_match_score get_match_reasons adapterResults
        user_id preferences t2
        (scrape_for_user calculate_match_score get_match_reasons
          adapterResults user_id preferences t1 ⟨[]⟩).2.1).2.2 = true) := by
  have h1 : scrape_for_user calculate_match_score get_match_reasons
      adapterResults user_id preferences t1 ⟨[]⟩ =
      (computeScrapeResults calculate_match_score get_match_reasons
          adapterResults preferences,
        ⟨[(cacheKey user_id t1,
          ⟨computeScrapeResults calculate_match_score get_match_reasons
              adapterResults preferences, t1,
            (computeScrapeResults calculate_match_score get_match_reasons
              adapterResults preferences).length⟩)]⟩, true) := by
    simp [scrape_for_user, cacheLookup, scrapeAndCache]
  refine ⟨by rw [h1], ?_, ?_⟩
  · intro hle hbkt
    have hkey : cacheKey user_id t2 = cacheKey user_id t1 := by
      unfold cacheKey
      rw [hbkt]
    have httl : t2 - t1 < 60 := by omega
    rw [h1]
    simp [scrape_for_user, cacheLookup, hkey, httl]
  · intro h60
    rw [h1]
    by_cases hkey : cacheKey user_id t2 = cacheKey user_id t1
    · have httl : ¬ t2 - t1 < 60 := by omega
      simp [scrape_for_user, cacheLookup, hkey, httl, scrapeAndCache]
    · have hbeq : (cacheKey user_id t1 == cacheKey user_id t2) = false := by
        simp [beq_eq_false_iff_ne]
        intro he
        exact hkey he.symm
      simp [scrape_for_user, cacheLookup, hbeq, scrapeAndCache]

/-- Witness for the amended claim C3 at concrete inputs: a first call at
minute 0, a same-bucket call at minute 30 served from the cache without
invoking adapters, and a call at minute 120 invoking them again. -/
theorem claim_C3_amended_witness :
    scrape_for_user scoreDemo reasonsDemo demoAdapters "u1" demoPrefs 30
        (scrape_for_user scoreDemo reasonsDemo demoAdapters "u1" demoPrefs
          0 ⟨[]⟩).2.1 =
      ((scrape_for_user scoreDemo reasonsDemo demoAdapters "u1" demoPrefs
          0 ⟨[]⟩).1,
        (scrape_for_user scoreDemo reasonsDemo demoAdapters "u1" demoPrefs
          0 ⟨[]⟩).2.1, false) ∧
    (scrape_for_user scoreDemo reasonsDemo demoAdapters "u1" demoPrefs 120
      (scrape_for_user scoreDemo reasonsDemo demoAdapters "u1" demoPrefs
        0 ⟨[]⟩).2.1).2.2 = true :=
  ⟨(claim_C3_amended scoreDemo reasonsDemo demoAdapters "u1" demoPrefs
      0 30).2.1 (by norm_num) (by norm_num),
    (claim_C3_amended scoreDemo reasonsDemo demoAdapters "u1" demoPrefs
      0 120).2.2 (by norm_num)⟩

/-! ## Stable descending sort lemmas -/

theorem insertDesc_perm {α β : Type} [LinearOrder β] (key : α → β) (a : α)
    (l : List α) : (insertDesc key a l).Perm (a :: l) := by
  induction l with
  | nil => exact List.Perm.refl _
  | cons b t ih =>
    rw [insertDesc]
    split
    · exact List.Perm.refl _
    · exact (List.Perm.cons b ih).trans (List.Perm.swap a b t)

theorem sortDesc_perm {α β : Type} [LinearOrder β] (key : α → β)
    (l : List α) : (sortDesc key l).Perm l := by
  induction l with
  | nil => exact List.Perm.refl _
  | cons a t ih =>
    exact (insertDesc_perm key a (sortDesc key t)).trans (List.Perm.cons a ih)

theorem mem_insertDesc {α β : Type} [LinearOrder β] {key : α → β} {a b : α}
    {l : List α} : b ∈ insertDesc key a l ↔ b = a ∨ b ∈ l := by
  rw [(insertDesc_perm key a l).mem_iff, List.mem_cons]

theorem insertDesc_sorted {α β : Type} [LinearOrder β] {key : α → β} {a : α}
    {l : List α} (h : List.Sorted (fun x y => key y ≤ key x) l) :
    List.Sorted (fun x y => key y ≤ key x) (insertDesc key a l) := by
  induction l with
  | nil => simp [insertDesc]
  | cons b t ih =>
    rw [insertDesc]
    split_ifs with hba
    · refine List.Pairwise.cons ?_ h
      intro c hc
      rcases List.mem_cons.mp hc with rfl | hc
      · exact hba
      · exact le_trans (List.rel_of_pairwise_cons h hc) hba
    · refine List.Pairwise.cons ?_ (ih h.of_cons)
      intro c hc
      rcases mem_insertDesc.mp hc with rfl | hc
      · exact le_of_lt (not_le.mp hba)
      · exact List.rel_of_pairwise_cons h hc

theorem sortDesc_sorted {α β : Type} [LinearOrder β] (key : α → β)
    (l : List α) :
    List.Sorted (fun x y => key y ≤ key x) (sortDesc key l) := by
  induction l with
  | nil => simp [sortDesc]
  | cons a t ih => exact insertDesc_sorted ih

theorem map_snd_insertDesc {α β : Type} [LinearOrder β] (key : α → β)
    (a : Nat × α) (l : List (Nat × α)) :
    (insertDesc (fun p => key p.2) a l).map Prod.snd =
      insertDesc key a.2 (l.map Prod.snd) := by
  induction l with
  | nil => rfl
  | cons b t ih =>
    by_cases hba : key b.2 ≤ key a.2 <;>
      simp [insertDesc, hba, ih]

theorem map_snd_sortDesc {α β : Type} [LinearOrder β] (key : α → β)
    (l : List (Nat × α)) :
    (sortDesc (fun p => key p.2) l).map Prod.snd =
      sortDesc key (l.map Prod.snd) := by
  induction l with
  | nil => rfl
  | cons a t ih =>
    simp only [sortDesc, List.map_cons]
    rw [map_snd_insertDesc, ih]

/-- The strict lexicographic order "strictly larger key, or equal key
and strictly earlier original position" — what "descending score with
ties broken by original order" means on position-tagged elements. -/
def keyIdxLex {α β : Type} [LinearOrder β] (key : α → β)
    (p q : Nat × α) : Prop :=
  key q.2 < key p.2 ∨ (key p.2 = key q.2 ∧ p.1 < q.1)

theorem insertDesc_pairwise_lex {α β : Type} [LinearOrder β] {key : α → β}
    {a : Nat × α} {l : List (Nat × α)} (h : l.Pairwise (keyIdxLex key))
    (ha : ∀ b ∈ l, a.1 < b.1) :
    (insertDesc (fun p => key p.2) a l).Pairwise (keyIdxLex key) := by
  induction l with
  | nil => simp [insertDesc]
  | cons b t ih =>
    rw [insertDesc]
    split_ifs with hba
    · refine List.Pairwise.cons ?_ h
      intro c hc
      rcases List.mem_cons.mp hc with rfl | hc
      · rcases lt_or_eq_of_le hba with hlt | heq
        · exact Or.inl hlt
        · exact Or.inr ⟨heq.symm, ha c (List.mem_cons_self _ _)⟩
      · rcases List.rel_of_pairwise_cons h hc with hlt | ⟨heq, _⟩
        · exact Or.inl (lt_of_lt_of_le hlt hba)
        · rcases lt_or_eq_of_le (le_trans (le_of_eq heq.symm) hba) with h2 | h2
          · exact Or.inl h2
          · exact Or.inr ⟨h2.symm, ha c (List.mem_cons_of_mem _ hc)⟩
    · refine List.Pairwise.cons ?_
        (ih h.of_cons (fun c hc => ha c (List.mem_cons_of_mem _ hc)))
      intro c hc
      rcases mem_insertDesc.mp hc with rfl | hc
      · exact Or.inl (not_le.mp hba)
      · exact List.rel_of_pairwise_cons h hc

theorem sortDesc_pairwise_lex {α β : Type} [LinearOrder β] {key : α → β}
    {l : List (Nat × α)} (h : l.Pairwise (fun p q => p.1 < q.1)) :
    (sortDesc (fun p => key p.2) l).Pairwise (keyIdxLex key) := by
  induction l with
  | nil => simp [sortDesc]
  | cons a t ih =>
    rw [sortDesc]
    refine insertDesc_pairwise_lex (ih h.of_cons) ?_
    intro b hb
    exact List.rel_of_pairwise_cons h
      ((sortDesc_perm (fun p => key p.2) t).mem_iff.mp hb)

theorem fst_mem_enumFrom_ge {α : Type} {p : Nat × α} :
    ∀ {l : List α} {n : Nat}, p ∈ List.enumFrom n l → n ≤ p.1 := by
  intro l
  induction l with
  | nil => intro n h; simp [List.enumFrom] at h
  | cons a t ih =>
    intro n h
    rcases List.mem_cons.mp h with rfl | h
    · exact le_refl _
    · exact le_trans (Nat.le_succ n) (ih h)

theorem pairwise_fst_lt_enumFrom {α : Type} :
    ∀ (l : List α) (n : Nat),
      (List.enumFrom n l).Pairwise (fun p q => p.1 < q.1) := by
  intro l
  induction l with
  | nil => intro n; simp [List.enumFrom]
  | cons a t ih =>
    intro n
    refine List.Pairwise.cons ?_ (ih (n + 1))
    intro q hq
    exact lt_of_lt_of_le (Nat.lt_succ_self n) (fst_mem_enumFrom_ge hq)

theorem pairwise_fst_lt_enum {α : Type} (l : List α) :
    l.enum.Pairwise (fun p q => p.1 < q.1) :=
  pairwise_fst_lt_enumFrom l 0

/-! ## Scheduling (claim C7) -/

/-- Claim C7: the run's candidate selection is an ordered subset of the
input of length at most the remaining quota `q` — a prefix of a stable
descending sort which is itself a permutation of the input — sorted by
descending match score; on position-tagged postings the selection is
strictly ordered by (score descending, original scrape position
ascending), which is the tie-break guarantee; and on scores
[90, 60, 95] with quota 3 the submission order is [95, 90, 60]. -/
theorem claim_C7_scheduler (jobs : List Job) (q : Nat) :
    (scheduleJobs jobs q).length ≤ q ∧
    List.Sorted (fun a b => scoreKey b ≤ scoreKey a) (scheduleJobs jobs q) ∧
    (∃ rest, sortDesc scoreKey jobs = scheduleJobs jobs q ++ rest) ∧
    (sortDesc scoreKey jobs).Perm jobs ∧
    scheduleJobs jobs q =
      ((sortDesc (fun p => scoreKey p.2) jobs.enum).take q).map Prod.snd ∧
    ((sortDesc (fun p => scoreKey p.2) jobs.enum).take q).Pairwise
      (keyIdxLex scoreKey) ∧
    scheduleJobs [jobWithScore 90, jobWithScore 60, jobWithScore 95] 3 =
      [jobWithScore 95, jobWithScore 90, jobWithScore 60] := by
  refine ⟨?_, ?_, ?_, ?_, ?_, ?_, ?_⟩
  · rw [scheduleJobs, List.length_take]
    exact min_le_left _ _
  · exact List.Pairwise.sublist (List.take_sublist q _)
      (sortDesc_sorted scoreKey jobs)
  · exact ⟨(sortDesc scoreKey jobs).drop q, (List.take_append_drop q _).symm⟩
  · exact sortDesc_perm scoreKey jobs
  · rw [scheduleJobs, List.map_take, map_snd_sortDesc, List.enum_map_snd]
  · exact List.Pairwise.sublist (List.take_sublist q _)
      (sortDesc_pairwise_lex (pairwise_fst_lt_enum jobs))
  · decide

/-! ## Quota (claim C1) -/

/-- Each loop iteration appends exactly one log record, a success record
only on success, so the success-log count grows by at most the number of
remaining candidates. -/
theorem applyLoop_success_count (attempt : Job → ApplyRes) (remaining : Nat) :
    ∀ (todo succ : List Job) (logs : List LogEntry)
      (notifs : List (Job × Bool)),
      (applyLoop attempt remaining todo succ logs notifs).logs.countP
          (fun e => e.success) ≤
        logs.countP (fun e => e.success) + todo.length := by
  intro todo
  induction todo with
  | nil =>
    intro succ logs notifs
    simp [applyLoop]
  | cons j rest ih =>
    intro succ logs notifs
    have hT : ∀ lg : List LogEntry,
        List.countP (fun e => e.success)
            (lg ++ [(⟨j, true, none⟩ : LogEntry)]) =
          List.countP (fun e => e.success) lg + 1 := by
      intro lg
      simp [List.countP_append]
    have hF : ∀ (lg : List LogEntry) (er : Option String),
        List.countP (fun e => e.success)
            (lg ++ [(⟨j, false, er⟩ : LogEntry)]) =
          List.countP (fun e => e.success) lg := by
      intro lg er
      simp [List.countP_append]
    rw [applyLoop]
    rcases hatt : attempt j with _ | _ | e <;> simp only [hatt]
    · split_ifs with hstop
      · rw [hT, List.length_cons]
        omega
      · refine le_trans (ih _ _ _) ?_
        rw [hT, List.length_cons]
        omega
    · split_ifs with hstop
      · rw [hF, List.length_cons]
        omega
      · refine le_trans (ih _ _ _) ?_
        rw [hF, List.length_cons]
        omega
    · split_ifs with hstop
      · rw [hF, List.length_cons]
        omega
      · refine le_trans (ih _ _ _) ?_
        rw [hF, List.length_cons]
        omega

/-- Claim C1: in one `apply_for_jobs` run, the number of application
records logged with success status never exceeds the remaining quota at
run start, `max(0, max_daily - applications_today)`; and when that
remaining quota is zero the run returns immediately with no submission
attempted, nothing logged and nothing notified. -/
theorem claim_C1_quota (attempt : Job → ApplyRes) (jobs : List Job)
    (max_daily applications_today : Int) :
    (apply_for_jobs attempt jobs max_daily applications_today).logs.countP
        (fun e => e.success) ≤
      (max 0 (max_daily - applications_today)).toNat ∧
    (max 0 (max_daily - applications_today) = 0 →
      apply_for_jobs attempt jobs max_daily applications_today =
        ⟨[], [], []⟩) := by
  unfold apply_for_jobs
  by_cases h0 : max 0 (max_daily - applications_today) ≤ 0
  · rw [if_pos h0]
    exact ⟨by simp, fun _ => rfl⟩
  · rw [if_neg h0]
    refine ⟨?_, fun hz => absurd (le_of_eq hz) h0⟩
    have hle := applyLoop_success_count attempt
      (max 0 (max_daily - applications_today)).toNat
      (scheduleJobs jobs (max 0 (max_daily - applications_today)).toNat)
      [] [] []
    have hlen : (scheduleJobs jobs
          (max 0 (max_daily - applications_today)).toNat).length ≤
        (max 0 (max_daily - applications_today)).toNat := by
      rw [scheduleJobs, List.length_take]
      exact min_le_left _ _
    refine le_trans hle ?_
    simpa using hlen

/-- Witness for claim C1 at concrete inputs: with 5 applications already
submitted against a limit of 3 the run does nothing, and with quota 2
the success-log count of a 3-job run stays within 2. -/
theorem claim_C1_quota_witness :
    apply_for_jobs attemptDemo [demoJob] 3 5 = ⟨[], [], []⟩ ∧
    (apply_for_jobs attemptDemo [demoJob, demoJobAlt, demoJobOther]
        2 0).logs.countP (fun e => e.success) ≤ (max 0 ((2 : Int) - 0)).toNat :=
  ⟨(claim_C1_quota attemptDemo [demoJob] 3 5).2 (by decide),
    (claim_C1_quota attemptDemo [demoJob, demoJobAlt, demoJobOther] 2 0).1⟩

/-! ## Terminal outcomes (claim C8) -/

/-- Claim C8 evaluated at its failing inputs: a run whose single
candidate fails (returns `False` or raises) logs exactly one attempt
record but emits *zero* notification events — `notify_user` is only
invoked on the success path of `apply_for_jobs`, although it has a
dedicated failure message.  A successful candidate does get exactly one
record and one notification. -/
theorem claim_C8_notification_gap :
    apply_for_jobs attemptDemo [demoJob] 10 0 =
      ⟨[demoJob], [⟨demoJob, true, none⟩], [(demoJob, true)]⟩ ∧
    apply_for_jobs attemptFail [demoJob] 10 0 =
      ⟨[], [⟨demoJob, false, none⟩], []⟩ ∧
    apply_for_jobs attemptExn [demoJob] 10 0 =
      ⟨[], [⟨demoJob, false, some "boom"⟩], []⟩ := by
  refine ⟨rfl, rfl, rfl⟩

/-! ## Form detection (claim C9) -/

/-- Every value the URL chain can produce is one of the four platform
tags. -/
theorem urlFormType_mem {u t : String} (h : urlFormType u = some t) :
    t = "linkedin_easy_apply" ∨ t = "indeed_apply" ∨
      t = "careers24_apply" ∨ t = "pnet_apply" := by
  unfold urlFormType at h
  split_ifs at h <;> simp_all

/-- Claim C9: `detect_form_type` is a pure priority-ordered lookup (a
total function of the page value, which it never mutates): it always
returns exactly one of the five variant tags; a URL-pattern match decides
the result outright; only when no URL pattern matches do the page probes
decide (Easy Apply button first, then the Indeed apply control); and it
returns `generic` exactly when neither a URL pattern nor a probe
matches. -/
theorem claim_C9_detect (page : PageState) :
    (detect_form_type page = "linkedin_easy_apply" ∨
      detect_form_type page = "indeed_apply" ∨
      detect_form_type page = "careers24_apply" ∨
      detect_form_type page = "pnet_apply" ∨
      detect_form_type page = "generic") ∧
    (∀ t, urlFormType page.url = some t → detect_form_type page = t) ∧
    (urlFormType page.url = none →
      detect_form_type page =
        (if page.hasEasyApplyButton then "linkedin_easy_apply"
          else if page.hasIndeedApplyButton then "indeed_apply"
          else "generic")) ∧
    (detect_form_type page = "generic" ↔
      urlFormType page.url = none ∧ page.hasEasyApplyButton = false ∧
        page.hasIndeedApplyButton = false) := by
  rcases hurl : urlFormType page.url with _ | t
  · have hd : detect_form_type page =
        (if page.hasEasyApplyButton then "linkedin_easy_apply"
          else if page.hasIndeedApplyButton then "indeed_apply"
          else "generic") := by
      rw [detect_form_type, hurl]
    refine ⟨?_, ?_, fun _ => hd, ?_⟩
    · rw [hd]
      split_ifs <;> simp
    · intro t ht
      exact Option.noConfusion ht
    · rw [hd]
      rcases he : page.hasEasyApplyButton <;>
        rcases hi : page.hasIndeedApplyButton <;> simp
  · have hd : detect_form_type page = t := by
      rw [detect_form_type, hurl]
    have hmem := urlFormType_mem hurl
    refine ⟨?_, ?_, ?_, ?_⟩
    · rw [hd]
      tauto
    · intro t2 ht2
      cases ht2
      exact hd
    · intro hn
      exact Option.noConfusion hn
    · rw [hd]
      constructor
      · intro hg
        rcases hmem with h | h | h | h <;> rw [h] at hg <;> simp at hg
      · intro ⟨hn, _, _⟩
        exact Option.noConfusion hn

/-- Witness for claim C9 at a concrete page: a URL matching no platform
pattern with neither probed control classifies as `generic`. -/
theorem claim_C9_detect_witness : detect_form_type pageDemo = "generic" := by
  have h := (claim_C9_detect pageDemo).2.2.1 (by decide)
  simpa using h

/-! ## Missing apply URL (claim C10) -/

/-- Claim C10: a job whose apply-target URL is missing (`None`) or empty
(falsy) makes `apply_for_job` return `False` with an empty browser
trace — no navigation, no form detection, no form filler. -/
theorem claim_C10_no_apply_url (pageAfter : String → Except String PageState)
    (fillResult : String → Except String Bool) (job : Job)
    (h : job.apply_url = none ∨ job.apply_url = some "") :
    apply_for_job pageAfter fillResult job = (false, []) := by
  rcases h with h | h <;> simp [apply_for_job, h]

/-- Witness for claim C10 at a concrete job with no `apply_url`. -/
theorem claim_C10_no_apply_url_witness :
    apply_for_job (fun _ => .error "no browser") (fun _ => .ok true)
      jobMissA = (false, []) :=
  claim_C10_no_apply_url (fun _ => .error "no browser") (fun _ => .ok true)
    jobMissA (Or.inl rfl)

end CostByte
